import Mathlib

/-!
Verification development for the TiDB serverless MCP connector.

The definitions below are a shallow embedding of `src/connector.ts`
(class `TiDBConnector`) and of `validateConfig` / the startup sequence in
`src/server.ts`.  JavaScript strings are modelled as `List Char`; the
JavaScript string operations used by the source (`trim`, `toLowerCase`,
`startsWith`, `includes`, `split(".")[0]`) are modelled by executable
functions on `List Char` restricted to ASCII, which covers every string
the source manipulates.  JavaScript truthiness of optional strings and
numbers (`undefined`, `""` and `0` are falsy) is modelled explicitly.
Asynchronous driver calls are modelled by explicit driver records and by
event traces listing each driver interaction in order.
-/

namespace TiDBMCP

/-- JavaScript strings, modelled as lists of characters. -/
abbrev Str := List Char

/-- Decidable equality of `Except` results, used to evaluate the models on
concrete inputs. -/
instance {ε α : Type} [DecidableEq ε] [DecidableEq α] : DecidableEq (Except ε α) := fun x y =>
  match x, y with
  | .ok a, .ok b => if h : a = b then .isTrue (by rw [h]) else .isFalse (by simp [h])
  | .ok _, .error _ => .isFalse (by simp)
  | .error _, .ok _ => .isFalse (by simp)
  | .error a, .error b => if h : a = b then .isTrue (by rw [h]) else .isFalse (by simp [h])

/-- Whitespace recognised by the model of `String.prototype.trim`
(ASCII subset: space, tab, newline, carriage return). -/
def jsIsWhitespace (c : Char) : Bool :=
  c = ' ' || c = '\t' || c = '\n' || c = '\r'

/-- Model of `s.trim()`: drop leading and trailing whitespace. -/
def jsTrim (s : Str) : Str :=
  ((s.dropWhile jsIsWhitespace).reverse.dropWhile jsIsWhitespace).reverse

/-- Model of lower-casing a single character (ASCII range). -/
def jsLowerChar (c : Char) : Char :=
  if 'A' ≤ c && c ≤ 'Z' then Char.ofNat (c.toNat + 32) else c

/-- Model of `s.toLowerCase()` (ASCII range). -/
def jsToLower (s : Str) : Str := s.map jsLowerChar

/-- Model of `s.includes(sub)`: substring containment. -/
def jsIncludes : Str → Str → Bool
  | [], sub => sub.isEmpty
  | c :: rest, sub => List.isPrefixOf sub (c :: rest) || jsIncludes rest sub

/-- Truthiness of an optional JavaScript string:
`undefined` and the empty string are falsy. -/
def strTruthy : Option Str → Bool
  | none => false
  | some s => !s.isEmpty

/-- Truthiness of an optional JavaScript number: `undefined` and `0` are
falsy (`NaN`, which cannot reach the validated config in the modelled
paths, is not modelled). -/
def intTruthy : Option Int → Bool
  | none => false
  | some n => n != 0

/-- The `TiDBConfig` interface of `src/connector.ts`.  Every field is
optional in the source (`?:`), modelled with `Option`. -/
structure TiDBConfig where
  databaseUrl : Option Str := none
  host : Option Str := none
  port : Option Int := none
  username : Option Str := none
  password : Option Str := none
  database : Option Str := none
  tls : Option Bool := none
  tlsCaPath : Option Str := none
deriving DecidableEq

/-- The connection-relevant part of the `mysql.PoolOptions` built by
`TiDBConnector.createPool`.  A `password` of `none` means the option was
omitted, i.e. a passwordless connection. -/
structure PoolOptions where
  uri : Option Str := none
  host : Option Str := none
  port : Option Int := none
  user : Option Str := none
  password : Option Str := none
  database : Option Str := none
deriving DecidableEq

/-- Model of `TiDBConnector.createPool` (`src/connector.ts`, lines 24-76):
when `config.databaseUrl` is truthy the pool is built from the URI alone;
otherwise from the discrete fields, where the password option is set only
when the configured password is defined and non-empty ("treat empty
strings as passwordless connections"). -/
def createPoolOptions (config : TiDBConfig) : PoolOptions :=
  if strTruthy config.databaseUrl then
    { uri := config.databaseUrl }
  else
    { host := config.host
      port := config.port
      user := config.username
      password :=
        match config.password with
        | some p => if p.isEmpty then none else some p
        | none => none
      database := config.database }

/-- Errors thrown by `validateConfig` in `src/server.ts`. -/
inductive ConfigError
  | missingHostOrUrl
  | missingUsername
  | invalidPort
deriving DecidableEq

/-- Model of `validateConfig` (`src/server.ts`, lines 319-331).  The port
check mirrors the JavaScript guard
`if (config.port && (config.port < 1 || config.port > 65535))`, in which a
port of `0` is falsy and therefore skips the range check. -/
def validateConfig (config : TiDBConfig) : Except ConfigError Unit :=
  if !strTruthy config.databaseUrl && !strTruthy config.host then
    .error .missingHostOrUrl
  else if !strTruthy config.databaseUrl && !strTruthy config.username then
    .error .missingUsername
  else if intTruthy config.port &&
      (decide (config.port.getD 0 < 1) || decide (config.port.getD 0 > 65535)) then
    .error .invalidPort
  else
    .ok ()

/-- Observable events of the startup sequence in `main`
(`src/server.ts`, lines 348-351). -/
inductive MainEv
  | poolCreated (opts : PoolOptions)
deriving DecidableEq

/-- Model of the startup fragment of `main` (`src/server.ts`): the config
is validated first; only when validation passes is the connector (and with
it the pool) constructed. -/
def startConnector (config : TiDBConfig) : List MainEv × Except ConfigError PoolOptions :=
  match validateConfig config with
  | .error e => ([], .error e)
  | .ok _ => ([.poolCreated (createPoolOptions config)], .ok (createPoolOptions config))

/-- Model of the new-config derivation in `TiDBConnector.switchDatabase`
(`src/connector.ts`, lines 88-93): spread of the current config with
`database: dbName`, `username: username || this.config.username` (an
`undefined` or empty username falls back), and
`password: password !== undefined ? password : this.config.password`
(only an `undefined` password falls back; an empty one is kept). -/
def deriveConfig (cfg : TiDBConfig) (dbName : Str)
    (username password : Option Str) : TiDBConfig :=
  { cfg with
    database := some dbName
    username :=
      match username with
      | some u => if u.isEmpty then cfg.username else some u
      | none => cfg.username
    password :=
      match password with
      | some p => some p
      | none => cfg.password }

/-- Driver-level events observable during `TiDBConnector.execute`
(`src/connector.ts`, lines 124-150): borrowing a connection, beginning a
transaction, issuing a statement on the connection, committing, rolling
back, releasing the connection. -/
inductive DbEv
  | getConnection
  | beginTransaction
  | execStmt (stmt : Str)
  | commit
  | rollback
  | release
deriving DecidableEq

/-- The fields of `mysql.ResultSetHeader` read by the source.  Either may
be absent on the driver object (`undefined`), modelled with `Option`. -/
structure ResultSetHeader where
  affectedRows : Option Nat := none
  insertId : Option Nat := none
deriving DecidableEq

/-- A model of the mysql2 driver as seen by `TiDBConnector.execute`:
the result of `connection.execute` for the statement issued at each
position of the batch (a driver is stateful, so the outcome may depend on
the position), and the result of `connection.commit`.  The error type `ε`
is abstract: the source re-raises driver errors unchanged. -/
structure ExecDriver (ε : Type) where
  execResult : Nat → Str → Except ε ResultSetHeader
  commitResult : Except ε Unit

/-- One per-statement outcome record pushed by `TiDBConnector.execute`. -/
structure StmtOutcome where
  statement : Str
  affectedRows : Nat
  lastInsertId : Option Nat
deriving DecidableEq

/-- The record `{ statement: stmt, affectedRows: resultHeader.affectedRows || 0,
lastInsertId: resultHeader.insertId || null }` built by the source; the
JavaScript `||` maps both `undefined` and `0` on the right of `insertId`
to `null`, and `undefined` on `affectedRows` to `0`. -/
def mkOutcome (stmt : Str) (h : ResultSetHeader) : StmtOutcome :=
  { statement := stmt
    affectedRows := h.affectedRows.getD 0
    lastInsertId :=
      match h.insertId with
      | some n => if n = 0 then none else some n
      | none => none }

/-- The `try { for ... } catch { rollback; throw } ` body of
`TiDBConnector.execute`: issue each statement in order on the borrowed
connection (position `i` in the batch), accumulating outcome records; on
the first statement failure roll back and re-raise; after the loop commit,
and on commit failure roll back and re-raise.  Returns the events issued
inside the `try`/`catch` together with the call's result. -/
def executeLoop (ε : Type) (d : ExecDriver ε) :
    List Str → Nat → List StmtOutcome → List DbEv × Except ε (List StmtOutcome)
  | [], _, acc =>
    match d.commitResult with
    | .ok _ => ([.commit], .ok acc.reverse)
    | .error e => ([.commit, .rollback], .error e)
  | stmt :: rest, i, acc =>
    match d.execResult i stmt with
    | .ok h =>
      let r := executeLoop ε d rest (i + 1) (mkOutcome stmt h :: acc)
      (.execStmt stmt :: r.1, r.2)
    | .error e => ([.execStmt stmt, .rollback], .error e)

/-- Model of `TiDBConnector.execute` on a statement list
(`src/connector.ts`, lines 124-150): borrow one connection, begin a
transaction, run the loop, and release the connection in the `finally`
block on every path. -/
def execute (ε : Type) (d : ExecDriver ε) (statements : List Str) :
    List DbEv × Except ε (List StmtOutcome) :=
  let r := executeLoop ε d statements 0 []
  (DbEv.getConnection :: DbEv.beginTransaction :: r.1 ++ [DbEv.release], r.2)

/-- The `string | string[]` argument of `TiDBConnector.execute`. -/
inductive SqlStmts
  | single (s : Str)
  | many (l : List Str)

/-- `Array.isArray(sqlStmts) ? sqlStmts : [sqlStmts]`. -/
def SqlStmts.toList : SqlStmts → List Str
  | .single s => [s]
  | .many l => l

/-- Model of `TiDBConnector.execute` on the union-typed argument. -/
def executeInput (ε : Type) (d : ExecDriver ε) (sqlStmts : SqlStmts) :
    List DbEv × Except ε (List StmtOutcome) :=
  execute ε d sqlStmts.toList

/-- The read-only keyword allowlist of `TiDBConnector.query`
(`src/connector.ts`, line 111). -/
def readOnlyKeywords : List Str :=
  ["select".data, "show".data, "describe".data, "explain".data, "with".data]

/-- `readOnlyKeywords.some(keyword => sqlStmt.trim().toLowerCase().startsWith(keyword))`. -/
def isReadOnly (sqlStmt : Str) : Bool :=
  readOnlyKeywords.any (fun kw => List.isPrefixOf kw (jsToLower (jsTrim sqlStmt)))

/-- Events observable during `TiDBConnector.query`: the statement (and the
optional parameter list) handed to `this.pool.execute`. -/
inductive QueryEv
  | poolExec (stmt : Str) (params : Option (List Str))
deriving DecidableEq

/-- Errors raised by `TiDBConnector.query`: the local read-only guard, or
a driver error propagated unchanged. -/
inductive QueryErr (ε : Type)
  | readOnlyViolation
  | driver (e : ε)
deriving DecidableEq

/-- A model of the pool driver as seen by `TiDBConnector.query`. -/
structure QueryDriver (ε ρ : Type) where
  queryResult : Str → Option (List Str) → Except ε ρ

/-- Model of `TiDBConnector.query` (`src/connector.ts`, lines 108-122):
the trimmed, lower-cased statement must start with one of the read-only
keywords, otherwise the call throws before any driver interaction; a
read-only statement is passed to `this.pool.execute` verbatim (with the
optional parameter list). -/
def query (ε ρ : Type) (d : QueryDriver ε ρ) (sqlStmt : Str)
    (params : Option (List Str)) : List QueryEv × Except (QueryErr ε) ρ :=
  if isReadOnly sqlStmt then
    match d.queryResult sqlStmt params with
    | .ok rows => ([.poolExec sqlStmt params], .ok rows)
    | .error e => ([.poolExec sqlStmt params], .error (.driver e))
  else
    ([], .error .readOnlyViolation)

/-- The mutable state of a `TiDBConnector` instance: the current pool
(identified by a number; fresh pools get fresh identifiers from
`nextPoolId`) and the current config. -/
structure ConnState where
  pool : Nat
  config : TiDBConfig
  nextPoolId : Nat

/-- Events observable during `TiDBConnector.switchDatabase`. -/
inductive SwitchEv
  | poolEnd (id : Nat)
  | poolCreate (id : Nat)
  | getConnection (id : Nat)
  | ping (id : Nat)
  | release (id : Nat)
deriving DecidableEq

/-- Error raised when the liveness probe of a freshly installed pool
fails. -/
inductive SwitchErr
  | pingFailed
deriving DecidableEq

/-- Model of `TiDBConnector.switchDatabase` (`src/connector.ts`, lines
83-101): await `this.pool.end()` on the old pool, build the new config
with `deriveConfig`, create and install the new pool, then probe it with
`getConnection`/`ping`/`release`.  `pingOk` models whether the probe round
trip succeeds; on failure the exception propagates (so the probe
connection is not released) and the connector keeps the new pool — the old
one is already closed and is never reinstalled. -/
def switchDatabase (st : ConnState) (dbName : Str)
    (username password : Option Str) (pingOk : Bool) :
    ConnState × List SwitchEv × Except SwitchErr Unit :=
  let newCfg := deriveConfig st.config dbName username password
  let newId := st.nextPoolId
  let st' : ConnState := { pool := newId, config := newCfg, nextPoolId := newId + 1 }
  if pingOk then
    (st',
     [.poolEnd st.pool, .poolCreate newId, .getConnection newId, .ping newId,
      .release newId],
     .ok ())
  else
    (st',
     [.poolEnd st.pool, .poolCreate newId, .getConnection newId, .ping newId],
     .error .pingFailed)

/-- `(this.config.host || "").includes("tidbcloud.com")` —
`TiDBConnector.isServerless` (`src/connector.ts`, lines 152-155). -/
def isServerless (cfg : TiDBConfig) : Bool :=
  jsIncludes (cfg.host.getD []) "tidbcloud.com".data

/-- The full username computed by `TiDBConnector.createUser` and
`TiDBConnector.removeUser`: start from `username.trim()`, but when the
target is serverless and the requested username contains no `"."`, replace
it by `prefix + "." + username` where the prefix is
`currentUser.split(".")[0]` — note the source concatenates the raw
(untrimmed) `username` here, not the trimmed one. -/
def fullUsernameOf (cfg : TiDBConfig) (currentUser username : Str) : Str :=
  if isServerless cfg && !(username.contains '.') then
    currentUser.takeWhile (fun c => c != '.') ++ '.' :: username
  else
    jsTrim username

/-- Events observable during `createUser` / `removeUser`: the
`SELECT CURRENT_USER()` round trip, borrowing a connection, the DDL
statement issued on it, and releasing it. -/
inductive UserEv
  | currentUserLookup
  | getConnection
  | ddl (stmt : Str)
  | release
deriving DecidableEq

/-- Error raised by the input validation of `createUser` / `removeUser`. -/
inductive UserErr
  | emptyUsername
deriving DecidableEq

/-- A model of the driver as seen by the user-management methods: the
value returned by `SELECT CURRENT_USER()` and the driver's value-escaping
function `connection.escape`. -/
structure UserDriver where
  currentUser : Str
  escape : Str → Str

/-- Model of `TiDBConnector.createUser` (`src/connector.ts`, lines
162-186): reject an empty or whitespace-only username before any driver
interaction; look up the current user only in the serverless-prefix case;
then borrow a connection and issue the `CREATE USER` DDL built from the
escaped full username and escaped password, releasing the connection in
the `finally` block; return the full username. -/
def createUser (cfg : TiDBConfig) (d : UserDriver) (username password : Str) :
    List UserEv × Except UserErr Str :=
  if (jsTrim username).isEmpty then
    ([], .error .emptyUsername)
  else
    let lookupEvs : List UserEv :=
      if isServerless cfg && !(username.contains '.') then [.currentUserLookup] else []
    let fullUsername := fullUsernameOf cfg d.currentUser username
    (lookupEvs ++
       [.getConnection,
        .ddl ("CREATE USER ".data ++ d.escape fullUsername ++
              " IDENTIFIED BY ".data ++ d.escape password),
        .release],
     .ok fullUsername)

/-- Model of `TiDBConnector.removeUser` (`src/connector.ts`, lines
188-210): same validation and username derivation as `createUser`, then
the `DROP USER` DDL built from the escaped full username. -/
def removeUser (cfg : TiDBConfig) (d : UserDriver) (username : Str) :
    List UserEv × Except UserErr Unit :=
  if (jsTrim username).isEmpty then
    ([], .error .emptyUsername)
  else
    let lookupEvs : List UserEv :=
      if isServerless cfg && !(username.contains '.') then [.currentUserLookup] else []
    let fullUsername := fullUsernameOf cfg d.currentUser username
    (lookupEvs ++
       [.getConnection,
        .ddl ("DROP USER ".data ++ d.escape fullUsername),
        .release],
     .ok ())

/-- The outcome records produced for a list of statements starting at
batch position `i`, when the driver reports header `hdrs j` for the
statement at position `j`. -/
def outcomesFrom (hdrs : Nat → ResultSetHeader) : Nat → List Str → List StmtOutcome
  | _, [] => []
  | i, s :: rest => mkOutcome s (hdrs i) :: outcomesFrom hdrs (i + 1) rest

theorem outcomesFrom_length (hdrs : Nat → ResultSetHeader) :
    ∀ (l : List Str) (i : Nat), (outcomesFrom hdrs i l).length = l.length := by
  intro l
  induction l with
  | nil => intro i; simp [outcomesFrom]
  | cons s rest ih => intro i; simp [outcomesFrom, ih]

theorem outcomesFrom_getElem? (hdrs : Nat → ResultSetHeader) :
    ∀ (l : List Str) (i j : Nat),
      (outcomesFrom hdrs i l)[j]? = (l[j]?).map (fun s => mkOutcome s (hdrs (i + j))) := by
  intro l
  induction l with
  | nil => intro i j; simp [outcomesFrom]
  | cons s rest ih =>
    intro i j
    cases j with
    | zero => simp [outcomesFrom]
    | succ j =>
      have := ih (i + 1) j
      simpa [outcomesFrom, Nat.add_assoc, Nat.add_comm 1 j] using this

/-- Every event emitted inside the `try`/`catch` of `execute` is a
statement execution, a commit or a rollback: the loop neither borrows nor
releases connections. -/
theorem executeLoop_events (ε : Type) (d : ExecDriver ε) :
    ∀ (stmts : List Str) (i : Nat) (acc : List StmtOutcome) (ev : DbEv),
      ev ∈ (executeLoop ε d stmts i acc).1 →
      ev = DbEv.commit ∨ ev = DbEv.rollback ∨ ∃ s, ev = DbEv.execStmt s := by
  intro stmts
  induction stmts with
  | nil =>
    intro i acc ev hmem
    rcases h : d.commitResult with _ | e <;>
      simp only [executeLoop, h] at hmem <;> simp at hmem <;> tauto
  | cons s rest ih =>
    intro i acc ev hmem
    cases h : d.execResult i s with
    | ok hd =>
      simp only [executeLoop, h] at hmem
      rcases List.mem_cons.mp hmem with h1 | h2
      · exact Or.inr (Or.inr ⟨s, h1⟩)
      · exact ih (i + 1) (mkOutcome s hd :: acc) ev h2
    | error e =>
      simp only [executeLoop, h] at hmem
      simp at hmem
      rcases hmem with h1 | h1
      · exact Or.inr (Or.inr ⟨s, h1⟩)
      · exact Or.inr (Or.inl h1)

theorem executeLoop_count_release (ε : Type) (d : ExecDriver ε)
    (stmts : List Str) (i : Nat) (acc : List StmtOutcome) :
    (executeLoop ε d stmts i acc).1.count DbEv.release = 0 := by
  refine List.count_eq_zero.mpr (fun hmem => ?_)
  rcases executeLoop_events ε d stmts i acc DbEv.release hmem with h | h | ⟨s, h⟩ <;>
    simp at h

theorem executeLoop_count_getConnection (ε : Type) (d : ExecDriver ε)
    (stmts : List Str) (i : Nat) (acc : List StmtOutcome) :
    (executeLoop ε d stmts i acc).1.count DbEv.getConnection = 0 := by
  refine List.count_eq_zero.mpr (fun hmem => ?_)
  rcases executeLoop_events ε d stmts i acc DbEv.getConnection hmem with h | h | ⟨s, h⟩ <;>
    simp at h

/-- Claim C2: on every call to `execute`, whatever the driver does, the
connection borrowed at the start is the only one borrowed, and it is
released exactly once, by the final event before the call returns or
throws — so the pool regains the connection on every exit path. -/
theorem executeBatch_always_releases (ε : Type) (d : ExecDriver ε) (stmts : List Str) :
    ∃ evs, (execute ε d stmts).1 = DbEv.getConnection :: evs ++ [DbEv.release] ∧
      evs.count DbEv.release = 0 ∧
      evs.count DbEv.getConnection = 0 ∧
      (execute ε d stmts).1.count DbEv.release = 1 ∧
      (execute ε d stmts).1.count DbEv.getConnection = 1 := by
  refine ⟨DbEv.beginTransaction :: (executeLoop ε d stmts 0 []).1, ?_, ?_, ?_, ?_, ?_⟩
  · simp [execute]
  · simp [List.count_cons, executeLoop_count_release]
  · simp [List.count_cons, executeLoop_count_getConnection]
  · simp [execute, List.count_cons, List.count_append, executeLoop_count_release]
  · simp [execute, List.count_cons, List.count_append, executeLoop_count_getConnection]

/-- Unfolding of the executor loop over a prefix on which every statement
succeeds: the loop emits one `execStmt` event per prefix statement,
accumulates its outcome records, and continues on the tail at the shifted
batch position. -/
theorem executeLoop_ok_append (ε : Type) (d : ExecDriver ε)
    (hdrs : Nat → ResultSetHeader) (tail : List Str) :
    ∀ (pre : List Str) (i : Nat) (acc : List StmtOutcome),
      (∀ j s, pre[j]? = some s → d.execResult (i + j) s = .ok (hdrs (i + j))) →
      executeLoop ε d (pre ++ tail) i acc =
        (pre.map DbEv.execStmt ++
           (executeLoop ε d tail (i + pre.length)
             ((outcomesFrom hdrs i pre).reverse ++ acc)).1,
         (executeLoop ε d tail (i + pre.length)
           ((outcomesFrom hdrs i pre).reverse ++ acc)).2) := by
  intro pre
  induction pre with
  | nil =>
    intro i acc _
    simp [outcomesFrom]
  | cons s rest ih =>
    intro i acc h
    have h0 : d.execResult i s = .ok (hdrs i) := by
      have := h 0 s (by simp)
      simpa using this
    have hrest : ∀ j s', rest[j]? = some s' →
        d.execResult (i + 1 + j) s' = .ok (hdrs (i + 1 + j)) := by
      intro j s' hj
      have hstep := h (j + 1) s' (by simpa using hj)
      have e : i + (j + 1) = i + 1 + j := by omega
      rw [e] at hstep
      exact hstep
    have hmain := ih (i + 1) (mkOutcome s (hdrs i) :: acc) hrest
    have hidx : i + 1 + rest.length = i + (s :: rest).length := by
      simp
      omega
    have hacc : (outcomesFrom hdrs (i + 1) rest).reverse ++ (mkOutcome s (hdrs i) :: acc) =
        (outcomesFrom hdrs i (s :: rest)).reverse ++ acc := by
      simp [outcomesFrom]
    rw [hidx, hacc] at hmain
    simp only [List.length_cons] at hmain
    simp only [List.cons_append, executeLoop, h0]
    simp [hmain]

/-- Claim C1: when the statement at position `pre.length` (1-based
position N = `pre.length + 1` with N greater than 1) fails after every
earlier statement succeeded, `execute` rolls the transaction back exactly
once, never invokes commit, re-raises the driver's original error, and
returns no outcome records. -/
theorem executeBatch_midFailure_rollsBack (ε : Type) (d : ExecDriver ε)
    (hdrs : Nat → ResultSetHeader) (pre post : List Str) (failStmt : Str) (e : ε)
    (_hpre : 1 ≤ pre.length)
    (hok : ∀ j s, pre[j]? = some s → d.execResult j s = .ok (hdrs j))
    (hfail : d.execResult pre.length failStmt = .error e) :
    (execute ε d (pre ++ failStmt :: post)).2 = .error e ∧
    (execute ε d (pre ++ failStmt :: post)).1.count DbEv.rollback = 1 ∧
    (execute ε d (pre ++ failStmt :: post)).1.count DbEv.commit = 0 ∧
    ∀ outs, (execute ε d (pre ++ failStmt :: post)).2 ≠ .ok outs := by
  have hok' : ∀ j s, pre[j]? = some s →
      d.execResult (0 + j) s = .ok (hdrs (0 + j)) := by
    intro j s hj
    simpa using hok j s hj
  have hloop := executeLoop_ok_append ε d hdrs (failStmt :: post) pre 0 [] hok'
  have hfail0 : d.execResult (0 + pre.length) failStmt = .error e := by
    simpa using hfail
  have htail : executeLoop ε d (failStmt :: post) (0 + pre.length)
      ((outcomesFrom hdrs 0 pre).reverse ++ []) =
      ([DbEv.execStmt failStmt, DbEv.rollback], .error e) := by
    simp only [executeLoop, hfail0]
  rw [htail] at hloop
  have hnorl : (pre.map DbEv.execStmt).count DbEv.rollback = 0 := by
    refine List.count_eq_zero.mpr (fun hmem => ?_)
    simp [List.mem_map] at hmem
  have hnoc : (pre.map DbEv.execStmt).count DbEv.commit = 0 := by
    refine List.count_eq_zero.mpr (fun hmem => ?_)
    simp [List.mem_map] at hmem
  refine ⟨?_, ?_, ?_, ?_⟩
  · simp [execute, hloop]
  · simp [execute, hloop, List.count_cons, List.count_append, hnorl]
  · simp [execute, hloop, List.count_cons, List.count_append, hnoc]
  · intro outs
    simp [execute, hloop]

/-- Claim C4: when every statement of the batch succeeds and the commit
succeeds, `execute` commits exactly once and returns one outcome record
per statement, in input order, carrying the statement's text, the
driver-reported affected-row count and the generated identity value (the
driver's `0` / absent identity surfacing as `null`). -/
theorem executeBatch_success_outcomes (ε : Type) (d : ExecDriver ε)
    (hdrs : Nat → ResultSetHeader) (stmts : List Str)
    (hok : ∀ j s, stmts[j]? = some s → d.execResult j s = .ok (hdrs j))
    (hcommit : d.commitResult = .ok ()) :
    (execute ε d stmts).2 = .ok (outcomesFrom hdrs 0 stmts) ∧
    (outcomesFrom hdrs 0 stmts).length = stmts.length ∧
    (∀ j s, stmts[j]? = some s →
        (outcomesFrom hdrs 0 stmts)[j]? =
          some ({ statement := s
                  affectedRows := (hdrs j).affectedRows.getD 0
                  lastInsertId :=
                    match (hdrs j).insertId with
                    | some n => if n = 0 then none else some n
                    | none => none } : StmtOutcome)) ∧
    (execute ε d stmts).1.count DbEv.commit = 1 := by
  have hok' : ∀ j s, stmts[j]? = some s →
      d.execResult (0 + j) s = .ok (hdrs (0 + j)) := by
    intro j s hj
    simpa using hok j s hj
  have hloop := executeLoop_ok_append ε d hdrs [] stmts 0 [] hok'
  rw [List.append_nil] at hloop
  have htail : executeLoop ε d [] (0 + stmts.length)
      ((outcomesFrom hdrs 0 stmts).reverse ++ []) =
      ([DbEv.commit], .ok (outcomesFrom hdrs 0 stmts)) := by
    simp only [executeLoop, hcommit]
    simp
  rw [htail] at hloop
  have hnoc : (stmts.map DbEv.execStmt).count DbEv.commit = 0 := by
    refine List.count_eq_zero.mpr (fun hmem => ?_)
    simp [List.mem_map] at hmem
  refine ⟨?_, outcomesFrom_length hdrs stmts 0, ?_, ?_⟩
  · simp [execute, hloop]
  · intro j s hj
    rw [outcomesFrom_getElem? hdrs stmts 0 j, hj]
    simp [mkOutcome]
  · simp [execute, hloop, List.count_cons, List.count_append, hnoc]

/-- A concrete driver for the executor witnesses: the statement at batch
position 1 fails with error `7`, every other statement succeeds. -/
def midFailDriver : ExecDriver Nat :=
  { execResult := fun i _ =>
      if i = 1 then .error 7 else .ok { affectedRows := some 2, insertId := some 5 }
    commitResult := .ok () }

/-- The headers reported by `midFailDriver` on success. -/
def midFailHdrs : Nat → ResultSetHeader :=
  fun _ => { affectedRows := some 2, insertId := some 5 }

theorem executeBatch_midFailure_rollsBack_witness :
    (execute Nat midFailDriver (["INSERT INTO t (n) VALUES (1)".data] ++
        "INVALID SQL".data :: [])).2 = .error 7 ∧
    (execute Nat midFailDriver (["INSERT INTO t (n) VALUES (1)".data] ++
        "INVALID SQL".data :: [])).1.count DbEv.rollback = 1 ∧
    (execute Nat midFailDriver (["INSERT INTO t (n) VALUES (1)".data] ++
        "INVALID SQL".data :: [])).1.count DbEv.commit = 0 ∧
    ∀ outs, (execute Nat midFailDriver (["INSERT INTO t (n) VALUES (1)".data] ++
        "INVALID SQL".data :: [])).2 ≠ .ok outs :=
  executeBatch_midFailure_rollsBack Nat midFailDriver midFailHdrs
    ["INSERT INTO t (n) VALUES (1)".data] [] "INVALID SQL".data 7
    (by decide)
    (by
      intro j s hj
      cases j with
      | zero =>
        simp only [List.getElem?_cons_zero, Option.some.injEq] at hj
        subst hj
        decide
      | succ n => simp at hj)
    (by decide)

/-- A concrete driver for the success witness: every statement succeeds. -/
def allOkDriver : ExecDriver Nat :=
  { execResult := fun _ _ => .ok { affectedRows := some 3, insertId := some 0 }
    commitResult := .ok () }

/-- The headers reported by `allOkDriver`. -/
def allOkHdrs : Nat → ResultSetHeader :=
  fun _ => { affectedRows := some 3, insertId := some 0 }

theorem executeBatch_success_outcomes_witness :
    (execute Nat allOkDriver ["UPDATE t SET n = 1".data, "DELETE FROM u".data]).2 =
      .ok (outcomesFrom allOkHdrs 0 ["UPDATE t SET n = 1".data, "DELETE FROM u".data]) ∧
    (outcomesFrom allOkHdrs 0 ["UPDATE t SET n = 1".data, "DELETE FROM u".data]).length =
      (["UPDATE t SET n = 1".data, "DELETE FROM u".data] : List Str).length ∧
    (∀ j s, (["UPDATE t SET n = 1".data, "DELETE FROM u".data] : List Str)[j]? = some s →
        (outcomesFrom allOkHdrs 0 ["UPDATE t SET n = 1".data, "DELETE FROM u".data])[j]? =
          some ({ statement := s
                  affectedRows := (allOkHdrs j).affectedRows.getD 0
                  lastInsertId :=
                    match (allOkHdrs j).insertId with
                    | some n => if n = 0 then none else some n
                    | none => none } : StmtOutcome)) ∧
    (execute Nat allOkDriver ["UPDATE t SET n = 1".data, "DELETE FROM u".data]).1.count
      DbEv.commit = 1 :=
  executeBatch_success_outcomes Nat allOkDriver allOkHdrs
    ["UPDATE t SET n = 1".data, "DELETE FROM u".data]
    (by
      intro j s hj
      cases j with
      | zero =>
        simp only [List.getElem?_cons_zero, Option.some.injEq] at hj
        subst hj
        decide
      | succ n =>
        cases n with
        | zero =>
          simp only [List.getElem?_cons_succ, List.getElem?_cons_zero,
            Option.some.injEq] at hj
          subst hj
          decide
        | succ m => simp at hj)
    (by decide)

/-- Claim C3: a statement whose trimmed, lower-cased text does not begin
with one of the five read-only keywords makes `query` fail with the
read-only violation while issuing no driver call at all; a statement that
does begin with one of them is handed to the driver verbatim and never
produces the read-only violation. -/
theorem query_readOnly_guard (ε ρ : Type) (d : QueryDriver ε ρ) (sqlStmt : Str)
    (params : Option (List Str)) :
    ((readOnlyKeywords.any
        (fun kw => List.isPrefixOf kw (jsToLower (jsTrim sqlStmt)))) = false →
      query ε ρ d sqlStmt params = ([], .error .readOnlyViolation)) ∧
    ((readOnlyKeywords.any
        (fun kw => List.isPrefixOf kw (jsToLower (jsTrim sqlStmt)))) = true →
      (query ε ρ d sqlStmt params).1 = [QueryEv.poolExec sqlStmt params] ∧
      (query ε ρ d sqlStmt params).2 ≠ .error QueryErr.readOnlyViolation) := by
  constructor
  · intro h
    simp [query, isReadOnly, h]
  · intro h
    cases hq : d.queryResult sqlStmt params with
    | ok rows =>
      constructor <;> simp [query, isReadOnly, h, hq]
    | error e =>
      constructor <;> simp [query, isReadOnly, h, hq]

/-- A concrete driver for the query witness: it answers `3` to every
statement. -/
def constQueryDriver : QueryDriver Nat Nat :=
  { queryResult := fun _ _ => .ok 3 }

theorem query_readOnly_guard_witness :
    query Nat Nat constQueryDriver "DELETE FROM t".data none =
      ([], .error .readOnlyViolation) ∧
    (query Nat Nat constQueryDriver "  SeLeCt 1".data none).1 =
      [QueryEv.poolExec "  SeLeCt 1".data none] ∧
    (query Nat Nat constQueryDriver "  SeLeCt 1".data none).2 ≠
      .error QueryErr.readOnlyViolation := by
  refine ⟨?_, ?_⟩
  · exact (query_readOnly_guard Nat Nat constQueryDriver "DELETE FROM t".data none).1
      (by decide)
  · exact (query_readOnly_guard Nat Nat constQueryDriver "  SeLeCt 1".data none).2
      (by decide)

/-- Counterexample to claim C5 as stated: a configuration whose port is
given as `0` — outside `[1, 65535]` — nevertheless passes validation and
reaches pool creation, because `0` is falsy in the JavaScript guard
`if (config.port && ...)`. -/
def portZeroConfig : TiDBConfig :=
  { host := some "localhost".data, username := some "root".data, port := some 0 }

theorem validateConfig_port_zero_counterexample :
    portZeroConfig.port = some 0 ∧ ((0 : Int) < 1 ∨ (0 : Int) > 65535) ∧
    (startConnector portZeroConfig).2 = .ok (createPoolOptions portZeroConfig) ∧
    (startConnector portZeroConfig).1 =
      [MainEv.poolCreated (createPoolOptions portZeroConfig)] := by
  refine ⟨rfl, Or.inl (by norm_num), by decide, by decide⟩

/-- Claim C5, amended: a configuration that supplies neither a truthy
connection URI nor both a truthy target address and a truthy credential
identity, or whose port is given, nonzero and outside `[1, 65535]`, makes
startup fail before any pool is created. -/
theorem initialize_invalid_config_fails (config : TiDBConfig)
    (h : (strTruthy config.databaseUrl = false ∧
            (strTruthy config.host = false ∨ strTruthy config.username = false)) ∨
         (∃ n : Int, config.port = some n ∧ n ≠ 0 ∧ (n < 1 ∨ n > 65535))) :
    (startConnector config).1 = [] ∧ ∃ e, (startConnector config).2 = .error e := by
  have hval : ∃ e, validateConfig config = .error e := by
    unfold validateConfig
    split_ifs with h1 h2 h3
    · exact ⟨_, rfl⟩
    · exact ⟨_, rfl⟩
    · exact ⟨_, rfl⟩
    · exfalso
      rcases h with ⟨hurl, hrest⟩ | ⟨n, hport, hn0, hrange⟩
      · simp [hurl] at h1 h2
        rcases hrest with hh | hu
        · exact absurd h1 (by simp [hh])
        · exact absurd h2 (by simp [hu])
      · apply h3
        simp [intTruthy, hport, hn0]
        rcases hrange with hlt | hgt
        · exact Or.inl hlt
        · exact Or.inr hgt
  rcases hval with ⟨e, he⟩
  refine ⟨?_, ⟨e, ?_⟩⟩ <;> simp [startConnector, he]

theorem initialize_invalid_config_fails_witness :
    (startConnector { port := some 4000 }).1 = [] ∧
    ∃ e, (startConnector { port := some 4000 }).2 = .error e :=
  initialize_invalid_config_fails { port := some 4000 }
    (Or.inl (by constructor <;> decide))

/-- Counterexample to claim C6 as stated: supplying an explicit
empty-string credential identity to the switch does not replace the
identity — the JavaScript fallback `username || this.config.username`
treats the empty string like an absent identity and reuses the current
one. -/
def rootConfig : TiDBConfig :=
  { host := some "localhost".data, username := some "root".data }

theorem switchDatabase_empty_identity_counterexample :
    (deriveConfig rootConfig "db2".data (some []) none).username = some "root".data ∧
    (some "root".data : Option Str) ≠ some [] := by
  constructor <;> decide

/-- Claim C6, amended: the derived configuration keeps every field of the
current one except the database name (always replaced), the credential
identity (replaced only when a non-empty identity is supplied; an absent
or empty-string identity reuses the current one) and the secret (an
unspecified secret reuses the current secret, any supplied secret —
including the empty string — replaces it, and the explicitly empty secret
yields a passwordless pool configuration, unlike an unspecified secret
when the current secret is non-empty). -/
theorem switchDatabase_config_derivation (cfg : TiDBConfig) (dbName : Str)
    (username password : Option Str) :
    (deriveConfig cfg dbName username password).databaseUrl = cfg.databaseUrl ∧
    (deriveConfig cfg dbName username password).host = cfg.host ∧
    (deriveConfig cfg dbName username password).port = cfg.port ∧
    (deriveConfig cfg dbName username password).tls = cfg.tls ∧
    (deriveConfig cfg dbName username password).tlsCaPath = cfg.tlsCaPath ∧
    (deriveConfig cfg dbName username password).database = some dbName ∧
    (deriveConfig cfg dbName none password).username = cfg.username ∧
    (deriveConfig cfg dbName (some []) password).username = cfg.username ∧
    (∀ u, u ≠ [] → (deriveConfig cfg dbName (some u) password).username = some u) ∧
    (deriveConfig cfg dbName username none).password = cfg.password ∧
    (∀ p, (deriveConfig cfg dbName username (some p)).password = some p) ∧
    (createPoolOptions (deriveConfig cfg dbName username (some []))).password = none ∧
    (∀ p, p ≠ [] → cfg.password = some p → strTruthy cfg.databaseUrl = false →
      (createPoolOptions (deriveConfig cfg dbName username none)).password = some p) := by
  refine ⟨rfl, rfl, rfl, rfl, rfl, rfl, rfl, by simp [deriveConfig], ?_, ?_, ?_, ?_, ?_⟩
  · intro u hu
    simp [deriveConfig, hu]
  · simp [deriveConfig]
  · intro p
    simp [deriveConfig]
  · simp only [createPoolOptions, deriveConfig]
    split_ifs <;> simp_all
  · intro p hp hcfg hurl
    simp [createPoolOptions, deriveConfig, hurl, hcfg, hp]

theorem switchDatabase_config_derivation_witness :
    (deriveConfig rootConfig "db2".data (some "alice".data) (some [])).databaseUrl =
      rootConfig.databaseUrl ∧
    (deriveConfig rootConfig "db2".data (some "alice".data) (some [])).host =
      rootConfig.host ∧
    (deriveConfig rootConfig "db2".data (some "alice".data) (some [])).port =
      rootConfig.port ∧
    (deriveConfig rootConfig "db2".data (some "alice".data) (some [])).tls =
      rootConfig.tls ∧
    (deriveConfig rootConfig "db2".data (some "alice".data) (some [])).tlsCaPath =
      rootConfig.tlsCaPath ∧
    (deriveConfig rootConfig "db2".data (some "alice".data) (some [])).database =
      some "db2".data ∧
    (deriveConfig rootConfig "db2".data none (some [])).username = rootConfig.username ∧
    (deriveConfig rootConfig "db2".data (some []) (some [])).username =
      rootConfig.username ∧
    (∀ u, u ≠ [] →
      (deriveConfig rootConfig "db2".data (some u) (some [])).username = some u) ∧
    (deriveConfig rootConfig "db2".data (some "alice".data) none).password =
      rootConfig.password ∧
    (∀ p, (deriveConfig rootConfig "db2".data (some "alice".data) (some p)).password =
      some p) ∧
    (createPoolOptions
      (deriveConfig rootConfig "db2".data (some "alice".data) (some []))).password =
      none ∧
    (∀ p, p ≠ [] → rootConfig.password = some p →
      strTruthy rootConfig.databaseUrl = false →
      (createPoolOptions
        (deriveConfig rootConfig "db2".data (some "alice".data) none)).password =
        some p) :=
  switchDatabase_config_derivation rootConfig "db2".data (some "alice".data) (some [])

/-- Claim C7: every execution of `switchDatabase` closes the old pool
before installing the new one, probes the new pool immediately after
installing it, propagates a probe failure to the caller, and never makes
the old pool current again — the final state holds the new pool whatever
the probe outcome. -/
theorem switchDatabase_lifecycle (st : ConnState) (dbName : Str)
    (username password : Option Str) (pingOk : Bool)
    (hwf : st.pool < st.nextPoolId) :
    ((switchDatabase st dbName username password pingOk).2.1).take 4 =
      [SwitchEv.poolEnd st.pool,
       SwitchEv.poolCreate (switchDatabase st dbName username password pingOk).1.pool,
       SwitchEv.getConnection (switchDatabase st dbName username password pingOk).1.pool,
       SwitchEv.ping (switchDatabase st dbName username password pingOk).1.pool] ∧
    (switchDatabase st dbName username password pingOk).1.pool ≠ st.pool ∧
    (switchDatabase st dbName username password pingOk).1.config =
      deriveConfig st.config dbName username password ∧
    (pingOk = false →
      (switchDatabase st dbName username password pingOk).2.2 =
        .error SwitchErr.pingFailed) ∧
    (pingOk = true →
      (switchDatabase st dbName username password pingOk).2.2 = .ok ()) := by
  have hne : st.nextPoolId ≠ st.pool := by omega
  cases pingOk <;> simp [switchDatabase, hne]

theorem switchDatabase_lifecycle_witness :
    ((switchDatabase ⟨0, rootConfig, 1⟩ "db2".data none none false).2.1).take 4 =
      [SwitchEv.poolEnd 0,
       SwitchEv.poolCreate
         (switchDatabase ⟨0, rootConfig, 1⟩ "db2".data none none false).1.pool,
       SwitchEv.getConnection
         (switchDatabase ⟨0, rootConfig, 1⟩ "db2".data none none false).1.pool,
       SwitchEv.ping
         (switchDatabase ⟨0, rootConfig, 1⟩ "db2".data none none false).1.pool] ∧
    (switchDatabase ⟨0, rootConfig, 1⟩ "db2".data none none false).1.pool ≠ 0 ∧
    (switchDatabase ⟨0, rootConfig, 1⟩ "db2".data none none false).1.config =
      deriveConfig rootConfig "db2".data none none ∧
    (false = false →
      (switchDatabase ⟨0, rootConfig, 1⟩ "db2".data none none false).2.2 =
        .error SwitchErr.pingFailed) ∧
    (false = true →
      (switchDatabase ⟨0, rootConfig, 1⟩ "db2".data none none false).2.2 = .ok ()) := by
  have h := switchDatabase_lifecycle ⟨0, rootConfig, 1⟩ "db2".data none none false
    (by decide)
  exact h

theorem isEmpty_false_of_ne_nil {l : Str} (h : l ≠ []) : l.isEmpty = false := by
  cases l with
  | nil => exact absurd rfl h
  | cons a t => rfl

/-- A serverless target configuration for the user-management witnesses. -/
def serverlessConfig : TiDBConfig :=
  { host := some "gateway01.us-west-2.prod.aws.tidbcloud.com".data
    username := some "pref.root".data }

/-- A driver for the user-management witnesses whose session user carries
the tenant prefix `pref` and whose escaping function is the identity. -/
def idEscapeDriver : UserDriver :=
  { currentUser := "pref.root@%".data, escape := id }

/-- Counterexample to claim C8 as stated: on a self-hosted target the
requested username is not used unchanged — the source trims it, so
`" alice "` reaches the DDL as `alice`. -/
theorem createUser_untrimmed_counterexample :
    (createUser rootConfig idEscapeDriver " alice ".data "pw".data).1 =
      [UserEv.getConnection,
       UserEv.ddl ("CREATE USER alice IDENTIFIED BY pw".data),
       UserEv.release] ∧
    ("alice".data : Str) ≠ " alice ".data := by
  constructor <;> decide

/-- Claim C8, amended: for create-user and remove-user, when the target
address contains the managed-cloud domain fragment and the requested
username contains no `'.'`, the issued DDL uses the full username formed
by prepending `prefix + "."` to the requested username (the prefix being
the session user's text before its first `'.'`); in every other case the
trimmed requested username is used. -/
theorem user_ddl_name_derivation (cfg : TiDBConfig) (d : UserDriver)
    (username password : Str) (h : jsTrim username ≠ []) :
    ∃ name,
      UserEv.ddl ("CREATE USER ".data ++ d.escape name ++ " IDENTIFIED BY ".data ++
          d.escape password) ∈ (createUser cfg d username password).1 ∧
      UserEv.ddl ("DROP USER ".data ++ d.escape name) ∈ (removeUser cfg d username).1 ∧
      (isServerless cfg = true → username.contains '.' = false →
        name = d.currentUser.takeWhile (fun c => c != '.') ++ '.' :: username) ∧
      ((isServerless cfg = false ∨ username.contains '.' = true) →
        name = jsTrim username) := by
  have h' : (jsTrim username).isEmpty = false := isEmpty_false_of_ne_nil h
  refine ⟨fullUsernameOf cfg d.currentUser username, ?_, ?_, ?_, ?_⟩
  · simp [createUser, h']
  · simp [removeUser, h']
  · intro hs hdot
    have hnotin : '.' ∉ username := by simpa using hdot
    simp [fullUsernameOf, hs, hnotin]
  · intro hor
    rcases hor with hs | hdot
    · simp [fullUsernameOf, hs]
    · have hin : '.' ∈ username := by simpa using hdot
      simp [fullUsernameOf, hin]

theorem user_ddl_name_derivation_witness :
    ∃ name,
      UserEv.ddl ("CREATE USER ".data ++ idEscapeDriver.escape name ++
          " IDENTIFIED BY ".data ++ idEscapeDriver.escape "pw".data) ∈
        (createUser serverlessConfig idEscapeDriver "bob".data "pw".data).1 ∧
      UserEv.ddl ("DROP USER ".data ++ idEscapeDriver.escape name) ∈
        (removeUser serverlessConfig idEscapeDriver "bob".data).1 ∧
      (isServerless serverlessConfig = true →
        ("bob".data : Str).contains '.' = false →
        name = idEscapeDriver.currentUser.takeWhile (fun c => c != '.') ++
          '.' :: "bob".data) ∧
      ((isServerless serverlessConfig = false ∨
          ("bob".data : Str).contains '.' = true) →
        name = jsTrim "bob".data) :=
  user_ddl_name_derivation serverlessConfig idEscapeDriver "bob".data "pw".data
    (by decide)

/-- Claim C9: every DDL statement issued by create-user embeds exactly the
escaped full username and the escaped password in the `CREATE USER`
template, and every DDL issued by remove-user embeds exactly the escaped
full username in the `DROP USER` template — never the raw caller-supplied
strings. -/
theorem user_ddl_escaped (cfg : TiDBConfig) (d : UserDriver)
    (username password : Str) :
    (∀ s, UserEv.ddl s ∈ (createUser cfg d username password).1 →
        s = "CREATE USER ".data ++
            d.escape (fullUsernameOf cfg d.currentUser username) ++
            " IDENTIFIED BY ".data ++ d.escape password) ∧
    (∀ s, UserEv.ddl s ∈ (removeUser cfg d username).1 →
        s = "DROP USER ".data ++
            d.escape (fullUsernameOf cfg d.currentUser username)) := by
  constructor <;> intro s hs <;>
    by_cases h : (jsTrim username).isEmpty <;>
    simp [createUser, removeUser, h] at hs <;>
    rcases hs with hs | hs <;> simp_all

theorem user_ddl_escaped_witness :
    ("CREATE USER pref.bob IDENTIFIED BY pw".data : Str) =
      "CREATE USER ".data ++
        idEscapeDriver.escape
          (fullUsernameOf serverlessConfig idEscapeDriver.currentUser "bob".data) ++
        " IDENTIFIED BY ".data ++ idEscapeDriver.escape "pw".data :=
  (user_ddl_escaped serverlessConfig idEscapeDriver "bob".data "pw".data).1
    ("CREATE USER pref.bob IDENTIFIED BY pw".data) (by decide)

/-- Counterexample to claim C10 as stated: on a serverless target an
undotted username is prefixed, so the name used in the DDL is
`pref.bob`, not the trimmed form `bob` of the argument. -/
theorem createUser_serverless_name_counterexample :
    (createUser serverlessConfig idEscapeDriver "bob".data "pw".data).2 =
      .ok "pref.bob".data ∧
    UserEv.ddl ("CREATE USER pref.bob IDENTIFIED BY pw".data) ∈
      (createUser serverlessConfig idEscapeDriver "bob".data "pw".data).1 ∧
    ("pref.bob".data : Str) ≠ jsTrim "bob".data := by
  refine ⟨by decide, by decide, by decide⟩

/-- Claim C10, amended: an empty or whitespace-only username makes both
create-user and remove-user fail before any event — no current-user
lookup, no connection borrow, no DDL; for every other username, outside
the serverless-prefix case the name used in the DDL is the trimmed form of
the argument (in the serverless-prefix case it is the prefixed raw
argument, per the C8 theorem). -/
theorem user_validation_and_name (cfg : TiDBConfig) (d : UserDriver)
    (username password : Str) :
    (jsTrim username = [] →
      createUser cfg d username password = ([], .error .emptyUsername) ∧
      removeUser cfg d username = ([], .error .emptyUsername)) ∧
    (jsTrim username ≠ [] →
      (isServerless cfg && !(username.contains '.')) = false →
      (createUser cfg d username password).2 = .ok (jsTrim username) ∧
      UserEv.ddl ("DROP USER ".data ++ d.escape (jsTrim username)) ∈
        (removeUser cfg d username).1) := by
  constructor
  · intro h
    constructor <;> simp [createUser, removeUser, h]
  · intro h hcase
    have h' : (jsTrim username).isEmpty = false := isEmpty_false_of_ne_nil h
    have hc : isServerless cfg = false ∨ ('.' ∈ username) := by
      cases hsv : isServerless cfg
      · exact Or.inl rfl
      · cases hct : username.contains '.'
        · exfalso
          rw [hsv, hct] at hcase
          simp at hcase
        · exact Or.inr (by simpa using hct)
    have hcase' : ¬(isServerless cfg = true ∧ '.' ∉ username) := by
      rintro ⟨h1, h2⟩
      rcases hc with h3 | h3
      · rw [h1] at h3
        cases h3
      · exact h2 h3
    constructor
    · simp [createUser, h', fullUsernameOf, hcase']
    · simp [removeUser, h', fullUsernameOf, hcase']

theorem user_validation_and_name_witness :
    (jsTrim "   ".data = [] →
      createUser rootConfig idEscapeDriver "   ".data "pw".data =
        ([], .error .emptyUsername) ∧
      removeUser rootConfig idEscapeDriver "   ".data =
        ([], .error .emptyUsername)) ∧
    (jsTrim "   ".data ≠ [] →
      (isServerless rootConfig && !(("   ".data : Str).contains '.')) = false →
      (createUser rootConfig idEscapeDriver "   ".data "pw".data).2 =
        .ok (jsTrim "   ".data) ∧
      UserEv.ddl ("DROP USER ".data ++ idEscapeDriver.escape (jsTrim "   ".data)) ∈
        (removeUser rootConfig idEscapeDriver "   ".data).1) :=
  user_validation_and_name rootConfig idEscapeDriver "   ".data "pw".data

end TiDBMCP
